import Mathlib

/-!
Verification of the MT199 investigation-case service.

The definitions below are a shallow embedding of the Python sources:
  * `backend/app/services/investigation_service.py` — the case lifecycle
    (`create_investigation`, `add_investigation_action`, `update_action_status`,
    `_check_investigation_completion`, `resolve_investigation`,
    `close_investigation`);
  * `backend/app/services/mt_service.py` — the message pipeline
    (`process_single_message`, `process_bulk_messages`, `_extract_attributes`,
    `_get_default_response_template`).

Database state is modelled as explicit record lists; `datetime.utcnow()` is an
explicit `now : Nat` parameter; the OpenAI collaborator (`call_openai` plus the
per-call-site JSON normalization) is passed in as a function argument whose
failure case (`Except.error`) models a raised `GenerationError`; `json.loads`
is an abstract `parse : String → Option Json` argument because it is Python
standard-library code, not code of this repository.
-/

namespace MTCase

/-- A persisted `Message` row (`backend/app/models/database.py`): the core only
reads `content` and the key/value attribute map. -/
structure Message where
  id : Nat
  content : String
  attrs : List (String × String)
deriving Repr, DecidableEq

/-- A persisted `Investigation` row.  `status` and `priority` are free-form
strings exactly as in the source (no enum validation happens anywhere). -/
structure Investigation where
  id : Nat
  messageId : Nat
  referenceNumber : String
  status : String
  priority : String
  customerInfo : Option String
  resolutionNotes : Option String
  createdAt : Nat
  updatedAt : Nat
  resolvedAt : Option Nat
deriving Repr, DecidableEq

/-- A persisted `InvestigationAction` row. -/
structure InvestigationAction where
  id : Nat
  investigationId : Nat
  actionType : String
  description : String
  suggestedResponse : Option String
  status : String
  priority : String
  notes : Option String
  deadline : Nat
  completedAt : Option Nat
  createdAt : Nat
  updatedAt : Nat
deriving Repr, DecidableEq

/-- The stored state the service operates on: the three tables plus the
autoincrement counters the ORM would supply for primary keys. -/
structure DB where
  messages : List Message
  investigations : List Investigation
  actions : List InvestigationAction
  nextInvId : Nat
  nextActionId : Nat
deriving Repr, DecidableEq

/-- Errors surfaced by the service layer: `ValueError(...not found)` and a
propagated collaborator failure (`GenerationError`). -/
inductive SvcError where
  | notFound
  | generation (msg : String)
deriving Repr, DecidableEq

/-- One suggested action as produced by `_suggest_investigation_actions`
(after its own normalization): the dictionary fields read by
`_analyze_and_create_actions`, with `None` standing for an absent key so the
`.get` defaults of the source apply. -/
structure SuggestedAction where
  type : String
  description : String
  suggestedResponse : Option String
  priority : Option String
  suggestedDays : Option Nat
deriving Repr, DecidableEq

/-- `db.query(Investigation).filter(Investigation.id == id).first()` -/
def findInvestigation (db : DB) (invId : Nat) : Option Investigation :=
  db.investigations.find? (fun i => i.id = invId)

/-- `db.query(InvestigationAction).filter(InvestigationAction.id == id).first()` -/
def findAction (db : DB) (actionId : Nat) : Option InvestigationAction :=
  db.actions.find? (fun a => a.id = actionId)

/-- `db.query(Message).filter(Message.id == id).first()` -/
def findMessage (db : DB) (messageId : Nat) : Option Message :=
  db.messages.find? (fun m => m.id = messageId)

/-- Commit an in-place ORM update of one investigation row. -/
def updateInvestigations (db : DB) (invId : Nat)
    (f : Investigation → Investigation) : DB :=
  { db with investigations :=
      db.investigations.map (fun i => if i.id = invId then f i else i) }

/-- Commit an in-place ORM update of one action row. -/
def updateActions (db : DB) (actionId : Nat)
    (f : InvestigationAction → InvestigationAction) : DB :=
  { db with actions :=
      db.actions.map (fun a => if a.id = actionId then f a else a) }

/-- Status of an investigation row, looked up by id. -/
def statusOf (db : DB) (invId : Nat) : Option String :=
  (findInvestigation db invId).map (fun i => i.status)

/-- `resolved_at` of an investigation row, looked up by id. -/
def resolvedAtOf (db : DB) (invId : Nat) : Option (Option Nat) :=
  (findInvestigation db invId).map (fun i => i.resolvedAt)

/-- `InvestigationService._analyze_and_create_actions`, after the classifier
call already succeeded: one `InvestigationAction` per suggestion, `status`
"pending", deadline `utcnow + timedelta(days=suggested_days or 3)`. -/
def createActionsFromSuggestions (db : DB) (invId : Nat)
    (suggestions : List SuggestedAction) (now : Nat) : DB :=
  match suggestions with
  | [] => db
  | s :: rest =>
      let a : InvestigationAction :=
        { id := db.nextActionId
          investigationId := invId
          actionType := s.type
          description := s.description
          suggestedResponse := s.suggestedResponse
          status := "pending"
          priority := s.priority.getD "medium"
          notes := none
          deadline := now + (s.suggestedDays.getD 3)
          completedAt := none
          createdAt := now
          updatedAt := now }
      createActionsFromSuggestions
        { db with actions := db.actions ++ [a], nextActionId := db.nextActionId + 1 }
        invId rest now

/-- `InvestigationService.create_investigation`.  The classifier argument
stands for `_suggest_investigation_actions` (the `call_openai` call together
with its JSON-normalization of the reply); `Except.error` is a raised
`GenerationError`.  Note the source commits the `Investigation` row *before*
invoking the classifier. -/
def create_investigation (db : DB) (messageId : Nat) (priority : String)
    (customerInfo : Option String) (refNumber : String) (now : Nat)
    (classifier : String → List (String × String) →
      Except String (List SuggestedAction)) :
    Except SvcError Investigation × DB :=
  match findMessage db messageId with
  | none => (Except.error SvcError.notFound, db)
  | some msg =>
      let inv : Investigation :=
        { id := db.nextInvId
          messageId := messageId
          referenceNumber := refNumber
          status := "open"
          priority := priority
          customerInfo := customerInfo
          resolutionNotes := none
          createdAt := now
          updatedAt := now
          resolvedAt := none }
      let db1 : DB :=
        { db with investigations := db.investigations ++ [inv],
                  nextInvId := db.nextInvId + 1 }
      match classifier msg.content msg.attrs with
      | Except.error e => (Except.error (SvcError.generation e), db1)
      | Except.ok suggestions =>
          (Except.ok inv, createActionsFromSuggestions db1 inv.id suggestions now)

/-- `InvestigationService.add_investigation_action`. -/
def add_investigation_action (db : DB) (invId : Nat) (actionType : String)
    (description : String) (suggestedResponse : Option String)
    (priority : String) (deadlineDays : Nat) (now : Nat) :
    Except SvcError InvestigationAction × DB :=
  match findInvestigation db invId with
  | none => (Except.error SvcError.notFound, db)
  | some inv =>
      let a : InvestigationAction :=
        { id := db.nextActionId
          investigationId := invId
          actionType := actionType
          description := description
          suggestedResponse := suggestedResponse
          status := "pending"
          priority := priority
          notes := none
          deadline := now + deadlineDays
          completedAt := none
          createdAt := now
          updatedAt := now }
      let db1 : DB :=
        { db with actions := db.actions ++ [a], nextActionId := db.nextActionId + 1 }
      let db2 : DB :=
        if inv.status = "open" then
          updateInvestigations db1 invId
            (fun i => { i with status := "in_progress", updatedAt := now })
        else db1
      (Except.ok a, db2)

/-- The all-actions-completed condition tested by
`_check_investigation_completion`: `total_actions > 0` and
`total_actions == completed_actions` (an action counts as completed exactly
when its status string is `"completed"`). -/
def allActionsCompleted (db : DB) (invId : Nat) : Bool :=
  let total := (db.actions.filter (fun a => a.investigationId = invId)).length
  let completed := (db.actions.filter
    (fun a => a.investigationId = invId ∧ a.status = "completed")).length
  decide (0 < total) && decide (total = completed)

/-- `InvestigationService._check_investigation_completion`.  When the
condition holds it sets `status`, `resolved_at` and `updated_at`
unconditionally — there is no guard on the current status and no check
whether `resolved_at` was already set. -/
def check_investigation_completion (db : DB) (invId : Nat) (now : Nat) : DB :=
  match findInvestigation db invId with
  | none => db
  | some _ =>
      if allActionsCompleted db invId then
        updateInvestigations db invId
          (fun i => { i with status := "resolved", resolvedAt := some now,
                             updatedAt := now })
      else db

/-- The row update performed by `update_action_status` before the completion
check: status and notes stored verbatim, `completed_at` assigned only when the
new status string equals `"completed"`. -/
def applyActionUpdate (a : InvestigationAction) (status : String)
    (notes : Option String) (now : Nat) : InvestigationAction :=
  { a with status := status, notes := notes, updatedAt := now,
           completedAt := if status = "completed" then some now else a.completedAt }

/-- `InvestigationService.update_action_status`. -/
def update_action_status (db : DB) (actionId : Nat) (status : String)
    (notes : Option String) (now : Nat) :
    Except SvcError InvestigationAction × DB :=
  match findAction db actionId with
  | none => (Except.error SvcError.notFound, db)
  | some a =>
      let a' := applyActionUpdate a status notes now
      let db1 := updateActions db actionId
        (fun x => applyActionUpdate x status notes now)
      let db2 := check_investigation_completion db1 a.investigationId now
      (Except.ok a', db2)

/-- `InvestigationService.resolve_investigation`: status becomes `"resolved"`
unless it is already `"closed"`; `resolution_notes` always overwritten;
`resolved_at` kept if already set. -/
def resolve_investigation (db : DB) (invId : Nat) (resolutionNotes : String)
    (now : Nat) : Except SvcError Investigation × DB :=
  match findInvestigation db invId with
  | none => (Except.error SvcError.notFound, db)
  | some inv =>
      let inv' : Investigation :=
        { inv with
            status := if inv.status ≠ "closed" then "resolved" else "closed"
            resolutionNotes := some resolutionNotes
            resolvedAt := match inv.resolvedAt with
              | none => some now
              | some t => some t
            updatedAt := now }
      (Except.ok inv', updateInvestigations db invId (fun _ => inv'))

/-- `InvestigationService.close_investigation`: unconditional transition to
`"closed"`. -/
def close_investigation (db : DB) (invId : Nat) (now : Nat) :
    Except SvcError Investigation × DB :=
  match findInvestigation db invId with
  | none => (Except.error SvcError.notFound, db)
  | some inv =>
      let inv' : Investigation := { inv with status := "closed", updatedAt := now }
      (Except.ok inv', updateInvestigations db invId (fun _ => inv'))

/-! ## Message pipeline (`backend/app/services/mt_service.py`)

JSON values as produced by `json.loads`.  The parser itself is Python
standard-library code, so it enters the embedding as an abstract
`parse : String → Option Json` argument (`none` models `JSONDecodeError`);
every repository-owned step around it is embedded concretely. -/

inductive Json where
  | null : Json
  | bool (b : Bool) : Json
  | num (n : Int) : Json
  | str (s : String) : Json
  | arr (elems : List Json) : Json
  | obj (fields : List (String × Json)) : Json

/-- Python `dict` key lookup over an association list. -/
def lookupJson : List (String × Json) → String → Option Json
  | [], _ => none
  | (k, v) :: rest, key => if k = key then some v else lookupJson rest key

/-- Python `d[k] = v`: replace in place when the key exists, append otherwise. -/
def dictSet (base : List (String × Json)) (k : String) (v : Json) :
    List (String × Json) :=
  if (lookupJson base k).isSome then
    base.map (fun p => if p.1 = k then (k, v) else p)
  else base ++ [(k, v)]

/-- Python `base.update(upd)`: existing keys overwritten in place, new keys
appended in `upd` order. -/
def dictUpdate (base upd : List (String × Json)) : List (String × Json) :=
  base.map (fun p =>
    match lookupJson upd p.1 with
    | some v => (p.1, v)
    | none => p)
  ++ upd.filter (fun p => (lookupJson base p.1).isNone)

/-- Index of the first occurrence of `c`. -/
def firstIdxOf (c : Char) (cs : List Char) : Option Nat :=
  cs.findIdx? (fun x => x = c)

/-- Index of the last occurrence of `c`. -/
def lastIdxOf (c : Char) (cs : List Char) : Option Nat :=
  match cs.reverse.findIdx? (fun x => x = c) with
  | none => none
  | some i => some (cs.length - 1 - i)

/-- The substring captured by `re.search(r'(\x7b.*\x7d)', text, re.DOTALL)`
(and its bracket variant): from the first opening delimiter through the last
closing delimiter, provided the latter comes strictly later. -/
def braceSpan (openC closeC : Char) (s : String) : Option String :=
  let cs := s.toList
  match firstIdxOf openC cs, lastIdxOf closeC cs with
  | some i, some j =>
      if i < j then some (String.mk ((cs.drop i).take (j - i + 1))) else none
  | _, _ => none

/-- The hard-coded structure `_extract_attributes` builds when both parse
attempts fail: the raw response wrapped as a `raw_extraction` attribute,
flagged by the `notes` field. -/
def extractFallback (response : String) : Json :=
  Json.obj [("attributes", Json.obj [("raw_extraction", Json.str response)]),
            ("notes", Json.str "Could not extract structured data")]

/-- The normalization chain of `MTService._extract_attributes` applied to the
raw collaborator reply: strict parse of the whole text, then strict parse of
the first-`\x7b`-to-last-`\x7d` span, then the hard-coded fallback. -/
def extract_attributes_normalize (parse : String → Option Json)
    (response : String) : Json :=
  match parse response with
  | some result => result
  | none =>
      match braceSpan '{' '}' response with
      | some sub =>
          match parse sub with
          | some result => result
          | none => extractFallback response
      | none => extractFallback response

/-! ### Response templates (`MTService._get_default_response_template`) -/

/-- One piece of a Python format string: literal text or a named
placeholder `\x7bkey\x7d`. -/
inductive Seg where
  | lit (s : String) : Seg
  | ph (key : String) : Seg

/-- The `NON_RECEIPT` template, split at its placeholders. -/
def nonReceiptTemplate : List Seg :=
  [Seg.lit "\nSubject: Investigation - Non-Receipt of Funds - Ref: ",
   Seg.ph "reference",
   Seg.lit "\n\nDear ", Seg.ph "recipient",
   Seg.lit ",\n\nWe are investigating a case of non-receipt of funds reported by the beneficiary.\n\nTransaction details:\n- Reference: ",
   Seg.ph "reference",
   Seg.lit "\n- Amount: ", Seg.ph "amount", Seg.lit " ", Seg.ph "currency",
   Seg.lit "\n- Date: ", Seg.ph "date",
   Seg.lit "\n- Beneficiary: ", Seg.ph "beneficiary",
   Seg.lit "\n\nPlease provide information on the status of this payment.\n\nThank you,\nInvestigation Team\n            "]

/-- The `CANCELLATION` template. -/
def cancellationTemplate : List Seg :=
  [Seg.lit "\nSubject: Urgent Cancellation Request - Ref: ",
   Seg.ph "reference",
   Seg.lit "\n\nDear ", Seg.ph "recipient",
   Seg.lit ",\n\nWe request the cancellation of the following payment:\n\nTransaction details:\n- Reference: ",
   Seg.ph "reference",
   Seg.lit "\n- Amount: ", Seg.ph "amount", Seg.lit " ", Seg.ph "currency",
   Seg.lit "\n- Date: ", Seg.ph "date",
   Seg.lit "\n\nReason for cancellation: ", Seg.ph "reason",
   Seg.lit "\n\nPlease confirm.\n            "]

/-- The `UNKNOWN` template, also used for every unrecognized workcase type. -/
def unknownTemplate : List Seg :=
  [Seg.lit "\nSubject: Investigation Request - Ref: ",
   Seg.ph "reference",
   Seg.lit "\n\nDear ", Seg.ph "recipient",
   Seg.lit ",\n\nWe are investigating the following transaction:\n\nTransaction details:\n- Reference: ",
   Seg.ph "reference",
   Seg.lit "\n\nWe will provide additional information shortly.\n\nThank you,\nInvestigation Team\n            "]

/-- `templates.get(workcase_type, templates[\"UNKNOWN\"])`. -/
def templateFor (workcaseType : String) : List Seg :=
  if workcaseType = "NON_RECEIPT" then nonReceiptTemplate
  else if workcaseType = "CANCELLATION" then cancellationTemplate
  else unknownTemplate

/-- Lookup in a string association list (Python `dict.get`). -/
def lookupStr : List (String × String) → String → Option String
  | [], _ => none
  | (k, v) :: rest, key => if k = key then some v else lookupStr rest key

/-- The template placeholder schema: the keys preloaded into `safe_values`. -/
def schemaKeys : List String :=
  ["reference", "recipient", "amount", "currency", "date", "beneficiary", "reason"]

/-- The `safe_values` dictionary: the seven schema keys with their `.get`
defaults (note `reason` is the constant `"Customer request"` and never read
from `fields`), followed by every extracted field whose key is not already a
schema key.  `today` stands for `datetime.now().strftime(\"%Y-%m-%d\")`. -/
def safeValues (fields : List (String × String)) (today : String) :
    List (String × String) :=
  [("reference", (lookupStr fields "reference").getD "Unknown"),
   ("recipient", (lookupStr fields "recipient").getD "Valued Correspondent"),
   ("amount", (lookupStr fields "amount").getD "Unknown"),
   ("currency", (lookupStr fields "currency").getD "USD"),
   ("date", (lookupStr fields "date").getD today),
   ("beneficiary", (lookupStr fields "beneficiary").getD "Unknown"),
   ("reason", "Customer request")]
  ++ fields.filter (fun p => ¬ p.1 ∈ schemaKeys)

/-- Python `template.format(**vals)`: substitute every placeholder, failing
(`none`, modelling `KeyError`) when a placeholder key is absent. -/
def renderTemplate : List Seg → List (String × String) → Option String
  | [], _ => some ""
  | Seg.lit s :: rest, vals => (renderTemplate rest vals).map (fun t => s ++ t)
  | Seg.ph k :: rest, vals =>
      match lookupStr vals k with
      | none => none
      | some v => (renderTemplate rest vals).map (fun t => v ++ t)

/-- The template text itself, placeholders left as literal `\x7bkey\x7d`
tokens: what the `except` branch of the source would return. -/
def rawTemplateText : List Seg → String
  | [] => ""
  | Seg.lit s :: rest => s ++ rawTemplateText rest
  | Seg.ph k :: rest => "\x7b" ++ k ++ "\x7d" ++ rawTemplateText rest

/-- `MTService._get_default_response_template`: render the selected template
over `safe_values`; the `except` branch (unreachable, as proved below) would
return the raw template text. -/
def get_default_response_template (workcaseType : String)
    (fields : List (String × String)) (today : String) : String :=
  match renderTemplate (templateFor workcaseType) (safeValues fields today) with
  | some s => s
  | none => rawTemplateText (templateFor workcaseType)

/-- `seg` is a literal free of the character `c` (or a placeholder). -/
def segNoChar (c : Char) : Seg → Bool
  | Seg.lit l => !(l.toList.contains c)
  | Seg.ph _ => true

/-- Every placeholder key of the template belongs to `ks`. -/
def phKeysIn (t : List Seg) (ks : List String) : Bool :=
  t.all (fun seg =>
    match seg with
    | Seg.lit _ => true
    | Seg.ph k => ks.contains k)

/-! ### Single-message and bulk processing -/

/-- `needle` occurs as a contiguous run at the head of `hay`. -/
def startsWithChars : List Char → List Char → Bool
  | [], _ => true
  | _ :: _, [] => false
  | c :: cs, h :: hs => c = h && startsWithChars cs hs

/-- `needle in hay` for character lists (Python `str.__contains__`). -/
def infixChars (needle : List Char) : List Char → Bool
  | [] => startsWithChars needle []
  | h :: hs => startsWithChars needle (h :: hs) || infixChars needle hs

/-- The MT199 marker test of `process_single_message`:
`"199" in message_content[:20]`. -/
def mt199Check (content : String) : Bool :=
  infixChars "199".toList (content.toList.take 20)

/-- The merge step run when the marker matches:
`result["attributes"].update(workcase_info)` when the key is present (a
`dict.update`, failing like Python when either side is not a mapping),
otherwise `result["attributes"] = workcase_info`. -/
def mergeWorkcase (result workcase : Json) : Except String Json :=
  match result with
  | Json.obj fields =>
      match lookupJson fields "attributes" with
      | some (Json.obj af) =>
          match workcase with
          | Json.obj wf =>
              Except.ok (Json.obj (dictSet fields "attributes"
                (Json.obj (dictUpdate af wf))))
          | _ => Except.error "TypeError: update requires a mapping"
      | some _ => Except.error "AttributeError: object has no attribute update"
      | none => Except.ok (Json.obj (dictSet fields "attributes" workcase))
  | _ => Except.error "TypeError: result is not a mapping"

/-- The metadata stamping at the end of `process_single_message`
(`message_id`, `processing_time`, `processed_at`), failing like Python when
the normalized result is not a mapping. -/
def setMeta (result : Json) (messageId : String) (processingTime : Int)
    (processedAt : String) : Except String Json :=
  match result with
  | Json.obj fields =>
      Except.ok (Json.obj
        (dictSet (dictSet (dictSet fields "message_id" (Json.str messageId))
          "processing_time" (Json.num processingTime))
          "processed_at" (Json.str processedAt)))
  | _ => Except.error "TypeError: result is not a mapping"

/-- `MTService.process_single_message`.  `convertO`, `extractO` and
`classifyO` stand for `_convert_mt_to_mx`, `_extract_attributes` and
`_process_mt199_stp_failure` respectively (each is the `call_openai` request
followed by its total normalization, so `Except.error` models a raised
collaborator failure); `processingTime`/`processedAt` stand for the wall
clock reads. -/
def process_single_message (convertO extractO classifyO : String → Except String Json)
    (content : String) (mode : String) (messageId : Option String)
    (nowEpoch : Nat) (processingTime : Int) (processedAt : String) :
    Except String Json :=
  let mid := messageId.getD ("MT-" ++ toString nowEpoch)
  match (if mode = "convert" then convertO content else extractO content) with
  | Except.error e => Except.error e
  | Except.ok base =>
      match (if mt199Check content then
              match classifyO content with
              | Except.error e => Except.error e
              | Except.ok workcase => mergeWorkcase base workcase
             else Except.ok base) with
      | Except.error e => Except.error e
      | Except.ok merged => setMeta merged mid processingTime processedAt

/-- One row of the validated bulk dataframe (columns `messageId`, `message`). -/
structure BulkRow where
  messageId : String
  message : String

/-- The inline entry appended when a row's processing raises. -/
def bulkErrorEntry (messageId : String) (e : String) (processedAt : String) : Json :=
  Json.obj [("message_id", Json.str messageId), ("error", Json.str e),
            ("processed_at", Json.str processedAt)]

/-- The per-row step of `process_bulk_messages`: `procRow` stands for the
`process_single_message(message_content, mode, message_id)` call made inside
the per-row `try`. -/
def bulkStep (procRow : BulkRow → Except String Json) (processedAt : String)
    (r : BulkRow) : Json :=
  match procRow r with
  | Except.ok result => result
  | Except.error e => bulkErrorEntry r.messageId e processedAt

/-- The row loop of `MTService.process_bulk_messages` over the already
parsed and column-validated dataframe. -/
def process_bulk_messages (procRow : BulkRow → Except String Json)
    (processedAt : String) (rows : List BulkRow) : List Json :=
  rows.map (bulkStep procRow processedAt)

/-! ### Concrete fixtures used by witnesses and counterexamples -/

/-- A stored message row. -/
def msgA : Message :=
  { id := 1, content := "MT199 STP failure notice", attrs := [("field20", "REF1")] }

/-- A database holding only `msgA`. -/
def dbMsg : DB :=
  { messages := [msgA], investigations := [], actions := [], nextInvId := 1,
    nextActionId := 1 }

/-- A closed investigation. -/
def invClosed : Investigation :=
  { id := 1, messageId := 1, referenceNumber := "INV-20260101-AB12",
    status := "closed", priority := "high", customerInfo := none,
    resolutionNotes := none, createdAt := 0, updatedAt := 0, resolvedAt := none }

/-- A pending action owned by investigation 1. -/
def actPending : InvestigationAction :=
  { id := 1, investigationId := 1, actionType := "information_request",
    description := "check", suggestedResponse := none, status := "pending",
    priority := "medium", notes := none, deadline := 3, completedAt := none,
    createdAt := 0, updatedAt := 0 }

/-- A closed investigation that still owns one pending action. -/
def dbClosed : DB :=
  { messages := [], investigations := [invClosed], actions := [actPending],
    nextInvId := 2, nextActionId := 2 }

/-- An investigation already resolved at time 5. -/
def invResolved : Investigation :=
  { id := 1, messageId := 1, referenceNumber := "INV-20260101-CD34",
    status := "resolved", priority := "medium", customerInfo := none,
    resolutionNotes := none, createdAt := 0, updatedAt := 5, resolvedAt := some 5 }

/-- A completed action owned by investigation 1. -/
def actCompleted : InvestigationAction :=
  { id := 1, investigationId := 1, actionType := "information_request",
    description := "check", suggestedResponse := none, status := "completed",
    priority := "medium", notes := none, deadline := 3, completedAt := some 5,
    createdAt := 0, updatedAt := 5 }

/-- A resolved investigation whose single action is completed. -/
def dbResolved : DB :=
  { messages := [], investigations := [invResolved], actions := [actCompleted],
    nextInvId := 2, nextActionId := 2 }

/-- A miniature strict parser used only to instantiate `parse` in witnesses:
it recognizes exactly the empty JSON object. -/
def parseToy (s : String) : Option Json :=
  if s = "\x7b\x7d" then some (Json.obj []) else none

/-- Three bulk rows, used to replay the spec's bulk scenario. -/
def bulkRowsEx : List BulkRow :=
  [{ messageId := "1", message := "MT103 one" },
   { messageId := "2", message := "MT103 two" },
   { messageId := "3", message := "MT103 three" }]

/-- A per-row processor that raises during classification of row 2 only. -/
def procEx : BulkRow → Except String Json := fun r =>
  if r.messageId = "2" then Except.error "classification failed"
  else Except.ok (Json.obj [("message_id", Json.str r.messageId)])

/-- A conversion collaborator reply, already normalized. -/
def convertW : String → Except String Json := fun _ =>
  Except.ok (Json.obj [("mx_message", Json.str "<camt110/>")])

/-- An extraction collaborator reply with one extracted attribute. -/
def extractW : String → Except String Json := fun _ =>
  Except.ok (Json.obj [("attributes", Json.obj [("field20", Json.str "REF1")])])

/-- A classification collaborator reply. -/
def classifyW : String → Except String Json := fun _ =>
  Except.ok (Json.obj [("workcase_type", Json.str "NON_RECEIPT")])

/-! ## Helper lemmas -/

theorem findInvestigation_updateInvestigations (db : DB) (t j : Nat)
    (f : Investigation → Investigation)
    (hf : ∀ i : Investigation, i.id = t → (f i).id = i.id) :
    findInvestigation (updateInvestigations db t f) j =
      (findInvestigation db j).map (fun i => if i.id = t then f i else i) := by
  unfold findInvestigation updateInvestigations
  rw [List.find?_map]
  have hp : ((fun i : Investigation => decide (i.id = j)) ∘
      fun i => if i.id = t then f i else i) =
      (fun i : Investigation => decide (i.id = j)) := by
    funext i
    by_cases h : i.id = t
    · simp only [Function.comp_apply, if_pos h]
      rw [hf i h]
    · simp only [Function.comp_apply, if_neg h]
  rw [hp]

theorem findAction_updateActions (db : DB) (t j : Nat)
    (f : InvestigationAction → InvestigationAction)
    (hf : ∀ a : InvestigationAction, a.id = t → (f a).id = a.id) :
    findAction (updateActions db t f) j =
      (findAction db j).map (fun a => if a.id = t then f a else a) := by
  unfold findAction updateActions
  rw [List.find?_map]
  have hp : ((fun a : InvestigationAction => decide (a.id = j)) ∘
      fun a => if a.id = t then f a else a) =
      (fun a : InvestigationAction => decide (a.id = j)) := by
    funext a
    by_cases h : a.id = t
    · simp only [Function.comp_apply, if_pos h]
      rw [hf a h]
    · simp only [Function.comp_apply, if_neg h]
  rw [hp]

theorem findInvestigation_id (db : DB) (invId : Nat) (inv : Investigation)
    (h : findInvestigation db invId = some inv) : inv.id = invId := by
  unfold findInvestigation at h
  have h2 := List.find?_some h
  exact of_decide_eq_true h2

theorem findAction_id (db : DB) (actionId : Nat) (a : InvestigationAction)
    (h : findAction db actionId = some a) : a.id = actionId := by
  unfold findAction at h
  have h2 := List.find?_some h
  exact of_decide_eq_true h2

theorem statusOf_eq_of_find (db : DB) (invId : Nat) (inv : Investigation)
    (hfind : findInvestigation db invId = some inv) :
    statusOf db invId = some inv.status := by
  unfold statusOf
  rw [hfind]
  rfl

theorem statusOf_updateInvestigations_self (db : DB) (invId : Nat)
    (f : Investigation → Investigation) (inv : Investigation)
    (hfind : findInvestigation db invId = some inv)
    (hf : ∀ i : Investigation, i.id = invId → (f i).id = i.id) :
    statusOf (updateInvestigations db invId f) invId = some (f inv).status ∧
    resolvedAtOf (updateInvestigations db invId f) invId = some (f inv).resolvedAt := by
  have hid : inv.id = invId := findInvestigation_id db invId inv hfind
  rw [statusOf, resolvedAtOf,
    findInvestigation_updateInvestigations db invId invId f hf, hfind]
  simp [hid]

theorem resolve_investigation_fields (db : DB) (invId : Nat)
    (inv : Investigation) (nts : String) (now : Nat)
    (hfind : findInvestigation db invId = some inv) :
    statusOf (resolve_investigation db invId nts now).2 invId =
      some (if inv.status ≠ "closed" then "resolved" else "closed") ∧
    resolvedAtOf (resolve_investigation db invId nts now).2 invId =
      some (match inv.resolvedAt with | none => some now | some t => some t) := by
  have hid : inv.id = invId := findInvestigation_id db invId inv hfind
  have h2 : (resolve_investigation db invId nts now).2 =
      updateInvestigations db invId (fun _ =>
        { inv with
            status := if inv.status ≠ "closed" then "resolved" else "closed"
            resolutionNotes := some nts
            resolvedAt := match inv.resolvedAt with
              | none => some now
              | some t => some t
            updatedAt := now }) := by
    unfold resolve_investigation
    rw [hfind]
  rw [h2]
  exact statusOf_updateInvestigations_self db invId
    (fun _ =>
      { inv with
          status := if inv.status ≠ "closed" then "resolved" else "closed"
          resolutionNotes := some nts
          resolvedAt := match inv.resolvedAt with
            | none => some now
            | some t => some t
          updatedAt := now })
    inv hfind (fun i hi => hid.trans hi.symm)

theorem add_action_keeps_status_when_not_open (db : DB) (invId : Nat)
    (t d : String) (sr : Option String) (p : String) (dd now : Nat)
    (inv : Investigation)
    (hfind : findInvestigation db invId = some inv)
    (hnot : ¬ inv.status = "open") :
    statusOf (add_investigation_action db invId t d sr p dd now).2 invId =
      some inv.status := by
  have h2 : (add_investigation_action db invId t d sr p dd now).2 =
      (if inv.status = "open" then
        updateInvestigations
          { db with
              actions := db.actions ++
                [{ id := db.nextActionId, investigationId := invId,
                   actionType := t, description := d, suggestedResponse := sr,
                   status := "pending", priority := p, notes := none,
                   deadline := now + dd, completedAt := none, createdAt := now,
                   updatedAt := now }]
              nextActionId := db.nextActionId + 1 }
          invId (fun i => { i with status := "in_progress", updatedAt := now })
      else
        { db with
            actions := db.actions ++
              [{ id := db.nextActionId, investigationId := invId,
                 actionType := t, description := d, suggestedResponse := sr,
                 status := "pending", priority := p, notes := none,
                 deadline := now + dd, completedAt := none, createdAt := now,
                 updatedAt := now }]
            nextActionId := db.nextActionId + 1 }) := by
    unfold add_investigation_action
    rw [hfind]
  rw [h2, if_neg hnot]

  show (findInvestigation db invId).map (fun i => i.status) = some inv.status
  rw [hfind]
  rfl

theorem actions_updateInvestigations (db : DB) (t : Nat)
    (f : Investigation → Investigation) :
    (updateInvestigations db t f).actions = db.actions := rfl

theorem investigations_updateActions (db : DB) (t : Nat)
    (f : InvestigationAction → InvestigationAction) :
    (updateActions db t f).investigations = db.investigations := rfl

theorem check_completion_actions (db : DB) (invId now : Nat) :
    (check_investigation_completion db invId now).actions = db.actions := by
  unfold check_investigation_completion
  cases findInvestigation db invId <;> simp only
  split <;> rfl

theorem check_completion_of_not_all (db : DB) (invId now : Nat)
    (h : allActionsCompleted db invId = false) :
    check_investigation_completion db invId now = db := by
  unfold check_investigation_completion
  cases findInvestigation db invId <;> simp [h]

theorem check_completion_of_all (db : DB) (invId now : Nat) (inv : Investigation)
    (hfind : findInvestigation db invId = some inv)
    (h : allActionsCompleted db invId = true) :
    statusOf (check_investigation_completion db invId now) invId = some "resolved" ∧
    resolvedAtOf (check_investigation_completion db invId now) invId = some (some now) := by
  have hid : inv.id = invId := by
    have := List.find?_some hfind
    exact of_decide_eq_true this
  unfold check_investigation_completion
  rw [hfind]
  simp only [h, if_true]
  rw [statusOf, resolvedAtOf,
    findInvestigation_updateInvestigations db invId invId
      (fun i => { i with status := "resolved", resolvedAt := some now,
                         updatedAt := now })
      (fun i _ => rfl), hfind]
  simp [hid]

theorem update_action_status_eq (db : DB) (actionId : Nat) (s : String)
    (notes : Option String) (now : Nat) (a : InvestigationAction)
    (hfind : findAction db actionId = some a) :
    update_action_status db actionId s notes now =
      (Except.ok (applyActionUpdate a s notes now),
       check_investigation_completion
         (updateActions db actionId (fun x => applyActionUpdate x s notes now))
         a.investigationId now) := by
  unfold update_action_status
  rw [hfind]

theorem allActionsCompleted_iff (db : DB) (invId : Nat) :
    allActionsCompleted db invId = true ↔
      (∃ b ∈ db.actions, b.investigationId = invId) ∧
        ∀ b ∈ db.actions, b.investigationId = invId → b.status = "completed" := by
  unfold allActionsCompleted
  simp only [Bool.and_eq_true, decide_eq_true_eq]
  constructor
  · rintro ⟨hpos, heq⟩
    have hne : db.actions.filter (fun a => a.investigationId = invId) ≠ [] :=
      List.length_pos.mp hpos
    have hex : ∃ b ∈ db.actions, b.investigationId = invId := by
      rcases List.exists_mem_of_ne_nil _ hne with ⟨b, hb⟩
      rcases List.mem_filter.mp hb with ⟨hb1, hb2⟩
      exact ⟨b, hb1, of_decide_eq_true hb2⟩
    refine ⟨hex, ?_⟩
    intro b hb hbi
    by_contra hbs
    have hsplit :
        db.actions.filter
            (fun a => decide (a.investigationId = invId ∧ a.status = "completed")) =
          (db.actions.filter (fun a => a.investigationId = invId)).filter
            (fun a => a.status = "completed") := by
      rw [List.filter_filter]
      congr 1
      funext x
      by_cases h1 : x.investigationId = invId <;>
        by_cases h2 : x.status = "completed" <;> simp [h1, h2]
    rw [hsplit] at heq
    have hall :=
      List.filter_length_eq_length.mp heq.symm
    have hbmem : b ∈ db.actions.filter (fun a => a.investigationId = invId) :=
      List.mem_filter.mpr ⟨hb, decide_eq_true hbi⟩
    exact hbs (of_decide_eq_true (hall b hbmem))
  · rintro ⟨⟨b, hb, hbi⟩, hall⟩
    have hbmem : b ∈ db.actions.filter (fun a => a.investigationId = invId) :=
      List.mem_filter.mpr ⟨hb, decide_eq_true hbi⟩
    constructor
    · exact List.length_pos.mpr (List.ne_nil_of_mem hbmem)
    · have hsplit :
          db.actions.filter
              (fun a => decide (a.investigationId = invId ∧ a.status = "completed")) =
            (db.actions.filter (fun a => a.investigationId = invId)).filter
              (fun a => a.status = "completed") := by
        rw [List.filter_filter]
        congr 1
        funext x
        by_cases h1 : x.investigationId = invId <;>
          by_cases h2 : x.status = "completed" <;> simp [h1, h2]
      rw [hsplit]
      refine (List.filter_length_eq_length.mpr ?_).symm
      intro x hx
      rcases List.mem_filter.mp hx with ⟨hx1, hx2⟩
      exact decide_eq_true (hall x hx1 (of_decide_eq_true hx2))

/-! ## Claims -/

/-- C1: if the classifier call made during `create_investigation` raises a
`GenerationError`, the failure does propagate and no `InvestigationAction` is
persisted — but the claim that *no record at all* is persisted is false: the
`Investigation` row is committed before the classifier is invoked, so the
stored state after the failing call differs from the state before it. -/
theorem C1_counterexample :
    (create_investigation dbMsg 1 "medium" none "INV-20260101-AB12" 0
        (fun _ _ => Except.error "GenerationError")).1 =
      Except.error (SvcError.generation "GenerationError") ∧
    (create_investigation dbMsg 1 "medium" none "INV-20260101-AB12" 0
        (fun _ _ => Except.error "GenerationError")).2 ≠ dbMsg := by
  refine ⟨rfl, ?_⟩
  decide

/-- C1 (amended): when the classifier fails, `create_investigation` propagates
the failure and persists no `InvestigationAction`, but the freshly created
`Investigation` row (status `"open"`) has already been committed and remains
in the store. -/
theorem C1_create_investigation_generation_failure (db : DB) (messageId : Nat)
    (priority : String) (ci : Option String) (ref : String) (now : Nat)
    (classifier : String → List (String × String) →
      Except String (List SuggestedAction))
    (msg : Message) (e : String)
    (hmsg : findMessage db messageId = some msg)
    (hfail : classifier msg.content msg.attrs = Except.error e) :
    (create_investigation db messageId priority ci ref now classifier).1 =
        Except.error (SvcError.generation e) ∧
    (create_investigation db messageId priority ci ref now classifier).2.actions =
        db.actions ∧
    ∃ inv : Investigation,
      (create_investigation db messageId priority ci ref now
          classifier).2.investigations = db.investigations ++ [inv] ∧
      inv.status = "open" ∧ inv.messageId = messageId := by
  unfold create_investigation
  rw [hmsg]
  simp only [hfail]
  exact ⟨trivial, trivial, _, rfl, rfl, rfl⟩

/-- Witness for C1: the amended theorem applied to the concrete one-message
store and an always-failing classifier. -/
theorem C1_witness :
    findMessage dbMsg 1 = some msgA ∧
    (create_investigation dbMsg 1 "medium" none "INV-20260101-AB12" 0
        (fun _ _ => Except.error "boom")).1 =
      Except.error (SvcError.generation "boom") := by
  refine ⟨by decide, ?_⟩
  exact (C1_create_investigation_generation_failure dbMsg 1 "medium" none
    "INV-20260101-AB12" 0 (fun _ _ => Except.error "boom") msgA "boom"
    (by decide) rfl).1

/-- C2: the claim that `closed` is terminal under every operation is false:
the automatic completion check run by `update_action_status` sets the status
to `"resolved"` with no guard on the current status, so completing the last
action of a closed investigation moves it from `"closed"` to `"resolved"`. -/
theorem C2_counterexample :
    statusOf dbClosed 1 = some "closed" ∧
    statusOf (update_action_status dbClosed 1 "completed" none 9).2 1 =
      some "resolved" := by
  decide

/-- C2 (amended): `closed` is sticky under `resolve_investigation` and
`add_investigation_action`, and under `update_action_status` exactly as long
as the post-update all-actions-completed condition does not hold; when that
condition holds, the completion check moves even a closed investigation to
`"resolved"`. -/
theorem C2_closed_sticky_except_completion_check (db : DB) (invId : Nat)
    (inv : Investigation)
    (hfind : findInvestigation db invId = some inv)
    (hclosed : inv.status = "closed") :
    (∀ nts : String, ∀ now : Nat,
      statusOf (resolve_investigation db invId nts now).2 invId = some "closed") ∧
    (∀ t d : String, ∀ sr : Option String, ∀ p : String, ∀ dd now : Nat,
      statusOf (add_investigation_action db invId t d sr p dd now).2 invId =
        some "closed") ∧
    (∀ actionId : Nat, ∀ s : String, ∀ nts : Option String, ∀ now : Nat,
     ∀ a : InvestigationAction,
      findAction db actionId = some a → a.investigationId = invId →
      allActionsCompleted
          (updateActions db actionId (fun x => applyActionUpdate x s nts now))
          invId = false →
      statusOf (update_action_status db actionId s nts now).2 invId =
        some "closed") ∧
    (∀ actionId : Nat, ∀ s : String, ∀ nts : Option String, ∀ now : Nat,
     ∀ a : InvestigationAction,
      findAction db actionId = some a → a.investigationId = invId →
      allActionsCompleted
          (updateActions db actionId (fun x => applyActionUpdate x s nts now))
          invId = true →
      statusOf (update_action_status db actionId s nts now).2 invId =
        some "resolved") := by
  refine ⟨?_, ?_, ?_, ?_⟩
  · intro nts now
    rw [(resolve_investigation_fields db invId inv nts now hfind).1, hclosed]
    simp
  · intro t d sr p dd now
    rw [add_action_keeps_status_when_not_open db invId t d sr p dd now inv
      hfind (by rw [hclosed]; decide), hclosed]
  · intro actionId s nts now a hfa hbelong hfalse
    subst hbelong
    rw [update_action_status_eq db actionId s nts now a hfa]
    rw [check_completion_of_not_all _ a.investigationId now hfalse]
    rw [show statusOf
      (updateActions db actionId fun x => applyActionUpdate x s nts now)
      a.investigationId = statusOf db a.investigationId from rfl]
    rw [statusOf_eq_of_find db a.investigationId inv hfind, hclosed]
  · intro actionId s nts now a hfa hbelong htrue
    subst hbelong
    rw [update_action_status_eq db actionId s nts now a hfa]
    exact (check_completion_of_all
      (updateActions db actionId fun x => applyActionUpdate x s nts now)
      a.investigationId now inv hfind htrue).1

/-- Witness for C2: on the closed fixture, an explicit resolve and a
non-completing action update both leave the status `"closed"`. -/
theorem C2_witness :
    findInvestigation dbClosed 1 = some invClosed ∧
    invClosed.status = "closed" ∧
    statusOf (resolve_investigation dbClosed 1 "done" 9).2 1 = some "closed" ∧
    statusOf (update_action_status dbClosed 1 "in_progress" none 9).2 1 =
      some "closed" := by
  refine ⟨by decide, by decide, ?_, ?_⟩
  · exact (C2_closed_sticky_except_completion_check dbClosed 1 invClosed
      (by decide) (by decide)).1 "done" 9
  · exact (C2_closed_sticky_except_completion_check dbClosed 1 invClosed
      (by decide) (by decide)).2.2.1 1 "in_progress" none 9 actPending
      (by decide) (by decide) (by decide)

/-- C3: the claim that `resolvedAt` is written at most once by the automatic
completion check is false: the check assigns `resolved_at = utcnow()` with no
already-resolved guard, so re-completing the action of an investigation
resolved at time 5 overwrites `resolvedAt` with the new time 10. -/
theorem C3_counterexample :
    resolvedAtOf dbResolved 1 = some (some 5) ∧
    resolvedAtOf (update_action_status dbResolved 1 "completed" none 10).2 1 =
      some (some 10) := by
  decide

/-- C3 (amended): the completion check stamps `resolvedAt` with the current
time on *every* action update after which all the investigation's actions are
completed, overwriting any earlier value; when the condition fails it leaves
`resolvedAt` unchanged, and only the explicit `resolve_investigation` keeps an
already-set `resolvedAt`. -/
theorem C3_resolvedAt_overwritten_by_completion_check (db : DB)
    (actionId : Nat) (s : String) (nts : Option String) (now : Nat)
    (a : InvestigationAction) (inv : Investigation)
    (hfa : findAction db actionId = some a)
    (hinv : findInvestigation db a.investigationId = some inv) :
    (allActionsCompleted
        (updateActions db actionId (fun x => applyActionUpdate x s nts now))
        a.investigationId = true →
      resolvedAtOf (update_action_status db actionId s nts now).2
        a.investigationId = some (some now)) ∧
    (allActionsCompleted
        (updateActions db actionId (fun x => applyActionUpdate x s nts now))
        a.investigationId = false →
      resolvedAtOf (update_action_status db actionId s nts now).2
        a.investigationId = resolvedAtOf db a.investigationId) ∧
    (∀ invId : Nat, ∀ t : Nat, ∀ rn : String, ∀ now2 : Nat, ∀ i : Investigation,
      findInvestigation db invId = some i → i.resolvedAt = some t →
      resolvedAtOf (resolve_investigation db invId rn now2).2 invId =
        some (some t)) := by
  refine ⟨?_, ?_, ?_⟩
  · intro htrue
    rw [update_action_status_eq db actionId s nts now a hfa]
    exact (check_completion_of_all
      (updateActions db actionId fun x => applyActionUpdate x s nts now)
      a.investigationId now inv hinv htrue).2
  · intro hfalse
    rw [update_action_status_eq db actionId s nts now a hfa]
    rw [check_completion_of_not_all _ a.investigationId now hfalse]
    rfl
  · intro invId t rn now2 i hfi hres
    rw [(resolve_investigation_fields db invId i rn now2 hfi).2, hres]

/-- Witness for C3: on the resolved fixture (resolved at 5), re-completing
the action at time 10 overwrites `resolvedAt`, and an explicit resolve keeps
the old value. -/
theorem C3_witness :
    findAction dbResolved 1 = some actCompleted ∧
    resolvedAtOf (update_action_status dbResolved 1 "completed" none 10).2 1 =
      some (some 10) ∧
    resolvedAtOf (resolve_investigation dbResolved 1 "done" 10).2 1 =
      some (some 5) := by
  refine ⟨by decide, ?_, ?_⟩
  · exact (C3_resolvedAt_overwritten_by_completion_check dbResolved 1
      "completed" none 10 actCompleted invResolved (by decide) (by decide)).1
      (by decide)
  · exact (C3_resolvedAt_overwritten_by_completion_check dbResolved 1
      "completed" none 10 actCompleted invResolved (by decide) (by decide)).2.2
      1 5 "done" 10 invResolved (by decide) (by decide)

/-- C4: after `update_action_status`, the owning investigation's status is set
to `"resolved"` exactly when it has at least one action and all of its actions
are `"completed"` (evaluated on the post-update store); when the condition
fails the status is left unchanged, and the completion check is a no-op on an
investigation with zero actions. -/
theorem C4_auto_resolution_iff_all_completed (db : DB) (actionId : Nat)
    (s : String) (nts : Option String) (now : Nat) (a : InvestigationAction)
    (inv : Investigation)
    (hfa : findAction db actionId = some a)
    (hinv : findInvestigation db a.investigationId = some inv) :
    (∀ db2 : DB, ∀ invId : Nat,
      allActionsCompleted db2 invId = true ↔
        (∃ b ∈ db2.actions, b.investigationId = invId) ∧
          ∀ b ∈ db2.actions, b.investigationId = invId →
            b.status = "completed") ∧
    (allActionsCompleted
        (updateActions db actionId (fun x => applyActionUpdate x s nts now))
        a.investigationId = true →
      statusOf (update_action_status db actionId s nts now).2
        a.investigationId = some "resolved") ∧
    (allActionsCompleted
        (updateActions db actionId (fun x => applyActionUpdate x s nts now))
        a.investigationId = false →
      statusOf (update_action_status db actionId s nts now).2
        a.investigationId = statusOf db a.investigationId) ∧
    (∀ db2 : DB, ∀ invId now2 : Nat,
      db2.actions.filter (fun b => b.investigationId = invId) = [] →
      check_investigation_completion db2 invId now2 = db2) := by
  refine ⟨fun db2 invId => allActionsCompleted_iff db2 invId, ?_, ?_, ?_⟩
  · intro htrue
    rw [update_action_status_eq db actionId s nts now a hfa]
    exact (check_completion_of_all
      (updateActions db actionId fun x => applyActionUpdate x s nts now)
      a.investigationId now inv hinv htrue).1
  · intro hfalse
    rw [update_action_status_eq db actionId s nts now a hfa]
    rw [check_completion_of_not_all _ a.investigationId now hfalse]
    rfl
  · intro db2 invId now2 hempty
    refine check_completion_of_not_all db2 invId now2 ?_
    unfold allActionsCompleted
    rw [hempty]
    simp

/-- Witness for C4: completing the single action of the resolved fixture
triggers the condition and yields `"resolved"`; the zero-action store is left
untouched by the completion check. -/
theorem C4_witness :
    findAction dbResolved 1 = some actCompleted ∧
    statusOf (update_action_status dbResolved 1 "completed" none 10).2 1 =
      some "resolved" ∧
    check_investigation_completion dbMsg 1 0 = dbMsg := by
  refine ⟨by decide, ?_, ?_⟩
  · exact (C4_auto_resolution_iff_all_completed dbResolved 1 "completed" none
      10 actCompleted invResolved (by decide) (by decide)).2.1 (by decide)
  · exact (C4_auto_resolution_iff_all_completed dbResolved 1 "completed" none
      10 actCompleted invResolved (by decide) (by decide)).2.2.2 dbMsg 1 0
      (by decide)

/-- C5: the claim that `completed`/`cancelled` are terminal action statuses is
false: `update_action_status` has no guard at all, so a `"completed"` action
is happily moved back to `"pending"`. -/
theorem C5_counterexample :
    (findAction dbResolved 1).map (fun a => a.status) = some "completed" ∧
    (findAction (update_action_status dbResolved 1 "pending" none 9).2 1).map
      (fun a => a.status) = some "pending" := by
  decide

/-- C5 (amended): `update_action_status` stores the new status verbatim with
no terminality guard (so `completed` and `cancelled` are not terminal);
`completedAt` is assigned exactly when the new status is `"completed"`, and an
already-set `completedAt` is never cleared by any update. -/
theorem C5_no_terminality_guard (db : DB) (actionId : Nat) (s : String)
    (nts : Option String) (now : Nat) (a : InvestigationAction)
    (hfa : findAction db actionId = some a) :
    findAction (update_action_status db actionId s nts now).2 actionId =
      some (applyActionUpdate a s nts now) ∧
    (applyActionUpdate a s nts now).status = s ∧
    (applyActionUpdate a s nts now).completedAt =
      (if s = "completed" then some now else a.completedAt) ∧
    (a.completedAt.isSome → ((applyActionUpdate a s nts now).completedAt).isSome) := by
  have hid : a.id = actionId := findAction_id db actionId a hfa
  refine ⟨?_, rfl, rfl, ?_⟩
  · rw [update_action_status_eq db actionId s nts now a hfa]
    have h1 : findAction
        (check_investigation_completion
          (updateActions db actionId fun x => applyActionUpdate x s nts now)
          a.investigationId now) actionId =
        findAction
          (updateActions db actionId fun x => applyActionUpdate x s nts now)
          actionId := by
      unfold findAction
      rw [check_completion_actions]
    rw [h1, findAction_updateActions db actionId actionId
      (fun x => applyActionUpdate x s nts now) (fun x _ => rfl), hfa]
    simp [hid]
  · intro hsome
    unfold applyActionUpdate
    by_cases h : s = "completed" <;> simp [h, hsome]

/-- Witness for C5: reverting the completed fixture action to `"pending"`
stores `"pending"` verbatim and keeps the old `completedAt`. -/
theorem C5_witness :
    findAction dbResolved 1 = some actCompleted ∧
    findAction (update_action_status dbResolved 1 "pending" none 9).2 1 =
      some (applyActionUpdate actCompleted "pending" none 9) ∧
    ((applyActionUpdate actCompleted "pending" none 9).completedAt).isSome := by
  refine ⟨by decide, ?_, ?_⟩
  · exact (C5_no_terminality_guard dbResolved 1 "pending" none 9 actCompleted
      (by decide)).1
  · exact (C5_no_terminality_guard dbResolved 1 "pending" none 9 actCompleted
      (by decide)).2.2.2 (by decide)

/-- C10: `update_action_status` validates nothing: any string `s` is stored
verbatim as the action status, `completedAt` is modified only when `s` is
exactly `"completed"`, and the completion check counts an action as completed
only for the exact string `"completed"`, so any investigation owning an
action in any other status (e.g. `"cancelled"`) is never auto-resolved. -/
theorem C10_no_status_validation (db : DB) (actionId : Nat) (s : String)
    (nts : Option String) (now : Nat) (a : InvestigationAction)
    (hfa : findAction db actionId = some a) :
    (update_action_status db actionId s nts now).1 =
      Except.ok (applyActionUpdate a s nts now) ∧
    (applyActionUpdate a s nts now).status = s ∧
    (applyActionUpdate a s nts now).completedAt =
      (if s = "completed" then some now else a.completedAt) ∧
    (∀ db2 : DB, ∀ invId now2 : Nat,
      (∃ b ∈ db2.actions, b.investigationId = invId ∧ b.status ≠ "completed") →
      check_investigation_completion db2 invId now2 = db2) := by
  refine ⟨?_, rfl, rfl, ?_⟩
  · rw [update_action_status_eq db actionId s nts now a hfa]
  · rintro db2 invId now2 ⟨b, hb, hbi, hbs⟩
    refine check_completion_of_not_all db2 invId now2 ?_
    cases h : allActionsCompleted db2 invId
    · rfl
    · exact absurd (((allActionsCompleted_iff db2 invId).mp h).2 b hb hbi) hbs

/-- Witness for C10: storing the out-of-enum status `"bogus"` verbatim, and a
pending action blocking auto-resolution on the closed fixture. -/
theorem C10_witness :
    findAction dbResolved 1 = some actCompleted ∧
    (update_action_status dbResolved 1 "bogus" none 9).1 =
      Except.ok (applyActionUpdate actCompleted "bogus" none 9) ∧
    check_investigation_completion dbClosed 1 7 = dbClosed := by
  refine ⟨by decide, ?_, ?_⟩
  · exact (C10_no_status_validation dbResolved 1 "bogus" none 9 actCompleted
      (by decide)).1
  · exact (C10_no_status_validation dbResolved 1 "bogus" none 9 actCompleted
      (by decide)).2.2.2 dbClosed 1 7 ⟨actPending, by decide, by decide, by decide⟩

/-- C6: the `_extract_attributes` normalization is a total function on raw
text (every branch returns a value) whose chain is: strict parse of the whole
text first; then strict parse of the span from the first `\x7b` to the last
`\x7d`; and if both fail, the hard-coded default wrapping the raw text, flagged
as a fallback by its `notes` field. -/
theorem C6_extract_attributes_chain (parse : String → Option Json)
    (response : String) :
    (∀ j : Json, parse response = some j →
      extract_attributes_normalize parse response = j) ∧
    (∀ sub : String, ∀ j : Json, parse response = none →
      braceSpan '{' '}' response = some sub → parse sub = some j →
      extract_attributes_normalize parse response = j) ∧
    (parse response = none →
      (∀ sub : String, braceSpan '{' '}' response = some sub →
        parse sub = none) →
      extract_attributes_normalize parse response = extractFallback response) ∧
    (∃ fields : List (String × Json),
      extractFallback response = Json.obj fields ∧
      lookupJson fields "notes" =
        some (Json.str "Could not extract structured data") ∧
      lookupJson fields "attributes" =
        some (Json.obj [("raw_extraction", Json.str response)])) := by
  refine ⟨?_, ?_, ?_, ?_⟩
  · intro j hj
    unfold extract_attributes_normalize
    rw [hj]
  · intro sub j hnone hspan hsub
    unfold extract_attributes_normalize
    rw [hnone, hspan]
    show (match parse sub with
      | some result => result
      | none => extractFallback response) = j
    rw [hsub]
  · intro hnone hall
    unfold extract_attributes_normalize
    rw [hnone]
    cases hspan : braceSpan '{' '}' response with
    | none => rfl
    | some sub =>
        show (match parse sub with
          | some result => result
          | none => extractFallback response) = extractFallback response
        rw [hall sub hspan]
  · exact ⟨_, rfl, rfl, rfl⟩

/-- Witness for C6: a reply that is prose around an embedded `\x7b\x7d` blob
fails the whole-text parse, is rescued by the span parse, and pure garbage
falls back to the flagged default. -/
theorem C6_witness :
    parseToy "reply: \x7b\x7d ok" = none ∧
    braceSpan '{' '}' "reply: \x7b\x7d ok" = some "\x7b\x7d" ∧
    extract_attributes_normalize parseToy "reply: \x7b\x7d ok" = Json.obj [] ∧
    extract_attributes_normalize parseToy "garbage" =
      extractFallback "garbage" := by
  refine ⟨rfl, rfl, ?_, ?_⟩
  · exact (C6_extract_attributes_chain parseToy "reply: \x7b\x7d ok").2.1
      "\x7b\x7d" (Json.obj []) rfl rfl rfl
  · exact (C6_extract_attributes_chain parseToy "garbage").2.2.1 rfl
      (fun sub hspan => by
        have : braceSpan '{' '}' "garbage" = none := rfl
        rw [this] at hspan
        exact absurd hspan (by simp))

theorem mem_toList_append (c : Char) (a b : String) :
    c ∈ (a ++ b).toList ↔ c ∈ a.toList ∨ c ∈ b.toList := by
  show c ∈ (a ++ b).data ↔ c ∈ a.data ∨ c ∈ b.data
  rw [String.data_append]
  exact List.mem_append

theorem renderTemplate_isSome (t : List Seg) (vals : List (String × String))
    (h : ∀ k : String, Seg.ph k ∈ t → (lookupStr vals k).isSome) :
    (renderTemplate t vals).isSome := by
  induction t with
  | nil => rfl
  | cons seg rest ih =>
      cases seg with
      | lit l =>
          have := ih (fun k hk => h k (List.mem_cons_of_mem _ hk))
          rcases Option.isSome_iff_exists.mp this with ⟨s, hs⟩
          simp [renderTemplate, hs]
      | ph k =>
          have hk := h k (List.mem_cons_self _ _)
          rcases Option.isSome_iff_exists.mp hk with ⟨v, hv⟩
          have := ih (fun k hk => h k (List.mem_cons_of_mem _ hk))
          rcases Option.isSome_iff_exists.mp this with ⟨s, hs⟩
          simp [renderTemplate, hv, hs]

theorem phKeysIn_mem (t : List Seg) (ks : List String) (k : String)
    (h : phKeysIn t ks = true) (hm : Seg.ph k ∈ t) : k ∈ ks := by
  induction t with
  | nil => cases hm
  | cons seg rest ih =>
      rw [phKeysIn, List.all_cons, Bool.and_eq_true] at h
      rcases List.mem_cons.mp hm with heq | hmem
      · rw [← heq] at h
        exact List.mem_of_elem_eq_true h.1
      · exact ih h.2 hmem

theorem lookup_safeValues_isSome (fields : List (String × String))
    (today : String) (k : String) (hk : k ∈ schemaKeys) :
    (lookupStr (safeValues fields today) k).isSome := by
  have hk7 : k = "reference" ∨ k = "recipient" ∨ k = "amount" ∨
      k = "currency" ∨ k = "date" ∨ k = "beneficiary" ∨ k = "reason" := by
    simpa [schemaKeys] using hk
  rcases hk7 with h | h | h | h | h | h | h <;> subst h <;>
    simp [safeValues, lookupStr]

theorem lookup_safeValues_empty (today : String) (k : String) (v : String)
    (h : lookupStr (safeValues [] today) k = some v) :
    v = "Unknown" ∨ v = "Valued Correspondent" ∨ v = "USD" ∨ v = today ∨
      v = "Customer request" := by
  simp only [safeValues, lookupStr, List.filter_nil, List.append_nil] at h
  split_ifs at h <;>
    (injection h with h2; subst h2; simp)

theorem renderTemplate_no_char (t : List Seg) (vals : List (String × String))
    (c : Char) :
    ∀ s : String, renderTemplate t vals = some s →
      (∀ seg ∈ t, segNoChar c seg = true) →
      (∀ k v : String, Seg.ph k ∈ t → lookupStr vals k = some v →
        c ∉ v.toList) →
      c ∉ s.toList := by
  induction t with
  | nil =>
      intro s hs _ _
      have : s = "" := by
        injection hs with h
        exact h.symm
      subst this
      simp [String.toList]
  | cons seg rest ih =>
      intro s hs hlit hvals
      cases seg with
      | lit l =>
          rw [renderTemplate] at hs
          rcases Option.map_eq_some'.mp hs with ⟨s', hs', hcat⟩
          subst hcat
          rw [mem_toList_append]
          rintro (hl | hr)
          · have h1 := hlit (Seg.lit l) (List.mem_cons_self _ _)
            simp only [segNoChar, Bool.not_eq_true'] at h1
            have h2 : l.toList.contains c = true := List.elem_eq_true_of_mem hl
            rw [h1] at h2
            cases h2
          · exact ih s' hs'
              (fun seg h2 => hlit seg (List.mem_cons_of_mem _ h2))
              (fun k v h2 h3 => hvals k v (List.mem_cons_of_mem _ h2) h3) hr
      | ph k =>
          rw [renderTemplate] at hs
          cases hv : lookupStr vals k with
          | none => rw [hv] at hs; cases hs
          | some v =>
              rw [hv] at hs
              rcases Option.map_eq_some'.mp hs with ⟨s', hs', hcat⟩
              subst hcat
              rw [mem_toList_append]
              rintro (hl | hr)
              · exact hvals k v (List.mem_cons_self _ _) hv hl
              · exact ih s' hs'
                  (fun seg h2 => hlit seg (List.mem_cons_of_mem _ h2))
                  (fun k v h2 h3 => hvals k v (List.mem_cons_of_mem _ h2) h3) hr

theorem renderTemplate_lookup_congr (t : List Seg)
    (vals vals' : List (String × String))
    (h : ∀ k : String, Seg.ph k ∈ t → lookupStr vals k = lookupStr vals' k) :
    renderTemplate t vals = renderTemplate t vals' := by
  induction t with
  | nil => rfl
  | cons seg rest ih =>
      cases seg with
      | lit l =>
          rw [renderTemplate, renderTemplate,
            ih (fun k hk => h k (List.mem_cons_of_mem _ hk))]
      | ph k =>
          rw [renderTemplate, renderTemplate,
            h k (List.mem_cons_self _ _),
            ih (fun k hk => h k (List.mem_cons_of_mem _ hk))]

theorem lookup_none_of_disjoint (fields : List (String × String)) (k : String)
    (hk : k ∈ schemaKeys) (hf : ∀ p ∈ fields, ¬ p.1 ∈ schemaKeys) :
    lookupStr fields k = none := by
  induction fields with
  | nil => rfl
  | cons p rest ih =>
      rw [lookupStr]
      have hne : ¬ p.1 = k := by
        intro he
        exact hf p (List.mem_cons_self _ _) (he ▸ hk)
      rw [if_neg hne]
      exact ih (fun q hq => hf q (List.mem_cons_of_mem _ hq))

theorem safeValues_extras_lookup (fields : List (String × String))
    (today : String) (k : String) (hk : k ∈ schemaKeys)
    (hf : ∀ p ∈ fields, ¬ p.1 ∈ schemaKeys) :
    lookupStr (safeValues fields today) k = lookupStr (safeValues [] today) k := by
  have hr := fun key (hkey : key ∈ schemaKeys) =>
    lookup_none_of_disjoint fields key hkey hf
  have hk7 : k = "reference" ∨ k = "recipient" ∨ k = "amount" ∨
      k = "currency" ∨ k = "date" ∨ k = "beneficiary" ∨ k = "reason" := by
    simpa [schemaKeys] using hk
  rcases hk7 with h | h | h | h | h | h | h <;> subst h <;>
    simp [safeValues, lookupStr, hr "reference" (by decide),
      hr "recipient" (by decide), hr "amount" (by decide),
      hr "currency" (by decide), hr "date" (by decide),
      hr "beneficiary" (by decide)]

/-- C7: response-template rendering is total (the placeholder substitution
always succeeds, so the `except` branch is dead): for every workcase type the
render over `safe_values` is defined; with an empty fields map every schema
placeholder resolves to its safe default (`"Unknown"`, `"Valued
Correspondent"`, `"Unknown"`, `"USD"`, the current date, `"Unknown"`,
`"Customer request"`), the output contains no placeholder-opening brace (no
unresolved token); and extracted fields outside the schema are accepted and
ignored: they leave the rendering unchanged. -/
theorem C7_response_template_safe_defaults (wt : String)
    (fields : List (String × String)) (today : String) :
    (renderTemplate (templateFor wt) (safeValues fields today)).isSome ∧
    (lookupStr (safeValues [] today) "reference" = some "Unknown" ∧
     lookupStr (safeValues [] today) "recipient" = some "Valued Correspondent" ∧
     lookupStr (safeValues [] today) "amount" = some "Unknown" ∧
     lookupStr (safeValues [] today) "currency" = some "USD" ∧
     lookupStr (safeValues [] today) "date" = some today ∧
     lookupStr (safeValues [] today) "beneficiary" = some "Unknown" ∧
     lookupStr (safeValues [] today) "reason" = some "Customer request") ∧
    ('{' ∉ today.toList →
      '{' ∉ (get_default_response_template wt [] today).toList) ∧
    ((∀ p ∈ fields, ¬ p.1 ∈ schemaKeys) →
      get_default_response_template wt fields today =
        get_default_response_template wt [] today) := by
  have hph : phKeysIn (templateFor wt) schemaKeys = true := by
    unfold templateFor
    split_ifs <;> decide
  refine ⟨?_, ?_, ?_, ?_⟩
  · exact renderTemplate_isSome _ _
      (fun k hk => lookup_safeValues_isSome fields today k
        (phKeysIn_mem _ _ k hph hk))
  · refine ⟨?_, ?_, ?_, ?_, ?_, ?_, ?_⟩ <;> simp [safeValues, lookupStr]
  · intro hb
    have hsome := renderTemplate_isSome (templateFor wt) (safeValues [] today)
      (fun k hk => lookup_safeValues_isSome [] today k
        (phKeysIn_mem _ _ k hph hk))
    rcases Option.isSome_iff_exists.mp hsome with ⟨s, hs⟩
    have hout : get_default_response_template wt [] today = s := by
      unfold get_default_response_template
      rw [hs]
    rw [hout]
    refine renderTemplate_no_char (templateFor wt) (safeValues [] today) '{' s
      hs ?_ ?_
    · unfold templateFor
      split_ifs <;> decide
    · intro k v _ hkv
      rcases lookup_safeValues_empty today k v hkv with h | h | h | h | h <;>
        subst h
      · decide
      · decide
      · decide
      · exact hb
      · decide
  · intro hf
    have hcong := renderTemplate_lookup_congr (templateFor wt)
      (safeValues fields today) (safeValues [] today)
      (fun k hk => safeValues_extras_lookup fields today k
        (phKeysIn_mem _ _ k hph hk) hf)
    unfold get_default_response_template
    rw [hcong]

/-- Witness for C7: the NON_RECEIPT template renders with an empty fields map
and no brace survives; a non-schema extracted field leaves the CANCELLATION
rendering untouched. -/
theorem C7_witness :
    ('{' ∉ ("2026-01-01" : String).toList) ∧
    (∀ p ∈ [(("field20" : String), ("REF1" : String))], ¬ p.1 ∈ schemaKeys) ∧
    (renderTemplate (templateFor "NON_RECEIPT")
      (safeValues [] "2026-01-01")).isSome ∧
    ('{' ∉ (get_default_response_template "NON_RECEIPT" [] "2026-01-01").toList) ∧
    get_default_response_template "CANCELLATION" [("field20", "REF1")]
        "2026-01-01" =
      get_default_response_template "CANCELLATION" [] "2026-01-01" := by
  refine ⟨by decide, by decide, ?_, ?_, ?_⟩
  · exact (C7_response_template_safe_defaults "NON_RECEIPT" [] "2026-01-01").1
  · exact (C7_response_template_safe_defaults "NON_RECEIPT" []
      "2026-01-01").2.2.1 (by decide)
  · exact (C7_response_template_safe_defaults "CANCELLATION"
      [("field20", "REF1")] "2026-01-01").2.2.2 (by decide)

/-- C8: bulk processing is row-isolated: the output has exactly one entry per
row, in row order; a failing row contributes an inline entry carrying its
`message_id` and an `error` field; and the entry of row `i` depends only on
the processor's behaviour on row `i`, so one row's failure cannot disturb the
others. -/
theorem C8_bulk_row_isolation (procRow : BulkRow → Except String Json)
    (processedAt : String) (rows : List BulkRow) :
    (process_bulk_messages procRow processedAt rows).length = rows.length ∧
    (∀ i : Nat, ∀ r : BulkRow, rows[i]? = some r →
      (process_bulk_messages procRow processedAt rows)[i]? =
        some (bulkStep procRow processedAt r)) ∧
    (∀ r : BulkRow, ∀ e : String, procRow r = Except.error e →
      bulkStep procRow processedAt r = bulkErrorEntry r.messageId e processedAt ∧
      ∃ fields : List (String × Json),
        bulkErrorEntry r.messageId e processedAt = Json.obj fields ∧
        lookupJson fields "message_id" = some (Json.str r.messageId) ∧
        lookupJson fields "error" = some (Json.str e)) ∧
    (∀ procRow' : BulkRow → Except String Json, ∀ i : Nat, ∀ r : BulkRow,
      rows[i]? = some r → procRow r = procRow' r →
      (process_bulk_messages procRow processedAt rows)[i]? =
        some (bulkStep procRow' processedAt r)) := by
  refine ⟨?_, ?_, ?_, ?_⟩
  · exact List.length_map _ _
  · intro i r hr
    unfold process_bulk_messages
    rw [List.getElem?_map, hr]
    rfl
  · intro r e he
    refine ⟨?_, _, rfl, rfl, rfl⟩
    unfold bulkStep
    rw [he]
  · intro procRow' i r hr heq
    unfold process_bulk_messages
    rw [List.getElem?_map, hr]
    show some (bulkStep procRow processedAt r) = _
    unfold bulkStep
    rw [heq]

/-- Witness for C8: the spec's scenario — three rows, row 2 raises — yields
three entries with an inline error entry in position 2 and normal results in
positions 1 and 3. -/
theorem C8_witness :
    (process_bulk_messages procEx "T1" bulkRowsEx).length = 3 ∧
    (process_bulk_messages procEx "T1" bulkRowsEx)[1]? =
      some (bulkErrorEntry "2" "classification failed" "T1") ∧
    (process_bulk_messages procEx "T1" bulkRowsEx)[0]? =
      some (Json.obj [("message_id", Json.str "1")]) ∧
    (process_bulk_messages procEx "T1" bulkRowsEx)[2]? =
      some (Json.obj [("message_id", Json.str "3")]) := by
  refine ⟨?_, ?_, ?_, ?_⟩
  · exact (C8_bulk_row_isolation procEx "T1" bulkRowsEx).1.trans rfl
  · rw [(C8_bulk_row_isolation procEx "T1" bulkRowsEx).2.1 1
      { messageId := "2", message := "MT103 two" } rfl]
    rfl
  · rw [(C8_bulk_row_isolation procEx "T1" bulkRowsEx).2.1 0
      { messageId := "1", message := "MT103 one" } rfl]
    rfl
  · rw [(C8_bulk_row_isolation procEx "T1" bulkRowsEx).2.1 2
      { messageId := "3", message := "MT103 three" } rfl]
    rfl

theorem exceptBind_ok {α β : Type} (a : α) (f : α → Except String β) :
    (Except.ok a >>= f) = f a := rfl

theorem exceptBind_error {α β : Type} (e : String) (f : α → Except String β) :
    ((Except.error e : Except String α) >>= f) = Except.error e := rfl

theorem exceptPure {α : Type} (a : α) :
    (pure a : Except String α) = Except.ok a := rfl

theorem lookupJson_append (xs ys : List (String × Json)) (k : String) :
    lookupJson (xs ++ ys) k =
      (match lookupJson xs k with
       | some v => some v
       | none => lookupJson ys k) := by
  induction xs with
  | nil => rfl
  | cons p rest ih =>
      rw [List.cons_append, lookupJson, lookupJson]
      by_cases hp : p.1 = k
      · rw [if_pos hp, if_pos hp]
      · rw [if_neg hp, if_neg hp, ih]

theorem lookupJson_map_set (fields : List (String × Json)) (k : String)
    (v : Json) :
    lookupJson (fields.map (fun p => if p.1 = k then (k, v) else p)) k =
      (lookupJson fields k).map (fun _ => v) := by
  induction fields with
  | nil => rfl
  | cons p rest ih =>
      rw [List.map_cons]
      by_cases hp : p.1 = k
      · rw [if_pos hp]
        simp only [lookupJson, if_true]
        rw [if_pos hp]
        rfl
      · rw [if_neg hp]
        simp only [lookupJson]
        rw [if_neg hp, if_neg hp, ih]

theorem lookupJson_map_set_ne (fields : List (String × Json)) (k : String)
    (v : Json) (k' : String) (h : ¬ k' = k) :
    lookupJson (fields.map (fun p => if p.1 = k then (k, v) else p)) k' =
      lookupJson fields k' := by
  induction fields with
  | nil => rfl
  | cons p rest ih =>
      rw [List.map_cons]
      by_cases hp : p.1 = k
      · rw [if_pos hp]
        simp only [lookupJson]
        have hkk : ¬ k = k' := fun he => h he.symm
        have hpk : ¬ p.1 = k' := by rw [hp]; exact hkk
        rw [if_neg hkk, if_neg hpk, ih]
      · rw [if_neg hp]
        simp only [lookupJson]
        by_cases hp2 : p.1 = k'
        · rw [if_pos hp2, if_pos hp2]
        · rw [if_neg hp2, if_neg hp2, ih]

theorem lookupJson_dictSet_self (fields : List (String × Json)) (k : String)
    (v : Json) : lookupJson (dictSet fields k v) k = some v := by
  unfold dictSet
  split_ifs with h
  · rw [lookupJson_map_set]
    rcases Option.isSome_iff_exists.mp h with ⟨w, hw⟩
    rw [hw]
    rfl
  · have h0 : lookupJson fields k = none := by
      cases hc : lookupJson fields k with
      | none => rfl
      | some w => rw [hc] at h; cases h rfl
    rw [lookupJson_append, h0]
    show lookupJson [(k, v)] k = some v
    rw [lookupJson, if_pos rfl]

theorem lookupJson_dictSet_ne (fields : List (String × Json)) (k : String)
    (v : Json) (k' : String) (h : ¬ k' = k) :
    lookupJson (dictSet fields k v) k' = lookupJson fields k' := by
  unfold dictSet
  split_ifs with hs
  · exact lookupJson_map_set_ne fields k v k' h
  · rw [lookupJson_append]
    cases hc : lookupJson fields k' with
    | some w => rfl
    | none =>
        show lookupJson [(k, v)] k' = none
        rw [lookupJson, if_neg (fun he => h he.symm)]
        rfl

theorem lookup_setMeta_attributes (bf : List (String × Json)) (mid : String)
    (pt : Int) (pa : String) :
    lookupJson
      (dictSet (dictSet (dictSet bf "message_id" (Json.str mid))
        "processing_time" (Json.num pt)) "processed_at" (Json.str pa))
      "attributes" = lookupJson bf "attributes" := by
  rw [lookupJson_dictSet_ne _ _ _ _ (by decide),
    lookupJson_dictSet_ne _ _ _ _ (by decide),
    lookupJson_dictSet_ne _ _ _ _ (by decide)]

/-- C9: in both modes, the extra case classification is run and merged into
the result's `attributes` exactly when `"199"` occurs in the first 20
characters of the message content: when the marker is absent the result does
not depend on the classifier at all and the `attributes` entry equals the base
result's; when present, the classifier's output is `dict.update`-merged into
an existing attributes map, installed verbatim when no attributes map exists,
and a classifier failure propagates. -/
theorem C9_mt199_classification_merge
    (convertO extractO classifyO : String → Except String Json)
    (content mode : String) (messageId : Option String) (nowEpoch : Nat)
    (pt : Int) (pa : String) (bf : List (String × Json))
    (hbase : (if mode = "convert" then convertO content else extractO content) =
      Except.ok (Json.obj bf)) :
    (mt199Check content = false →
      (∀ classifyO' : String → Except String Json,
        process_single_message convertO extractO classifyO content mode
          messageId nowEpoch pt pa =
        process_single_message convertO extractO classifyO' content mode
          messageId nowEpoch pt pa) ∧
      ∃ rf : List (String × Json),
        process_single_message convertO extractO classifyO content mode
          messageId nowEpoch pt pa = Except.ok (Json.obj rf) ∧
        lookupJson rf "attributes" = lookupJson bf "attributes") ∧
    (∀ wf af : List (String × Json),
      mt199Check content = true →
      classifyO content = Except.ok (Json.obj wf) →
      lookupJson bf "attributes" = some (Json.obj af) →
      ∃ rf : List (String × Json),
        process_single_message convertO extractO classifyO content mode
          messageId nowEpoch pt pa = Except.ok (Json.obj rf) ∧
        lookupJson rf "attributes" = some (Json.obj (dictUpdate af wf))) ∧
    (∀ wf : List (String × Json),
      mt199Check content = true →
      classifyO content = Except.ok (Json.obj wf) →
      lookupJson bf "attributes" = none →
      ∃ rf : List (String × Json),
        process_single_message convertO extractO classifyO content mode
          messageId nowEpoch pt pa = Except.ok (Json.obj rf) ∧
        lookupJson rf "attributes" = some (Json.obj wf)) ∧
    (∀ e : String,
      mt199Check content = true →
      classifyO content = Except.error e →
      process_single_message convertO extractO classifyO content mode
        messageId nowEpoch pt pa = Except.error e) := by
  refine ⟨?_, ?_, ?_, ?_⟩
  · intro hm
    constructor
    · intro classifyO'
      unfold process_single_message
      rw [hbase]
      simp [hm, exceptBind_ok, exceptPure]
    · refine ⟨dictSet (dictSet (dictSet bf "message_id"
          (Json.str (messageId.getD ("MT-" ++ toString nowEpoch))))
          "processing_time" (Json.num pt)) "processed_at" (Json.str pa),
        ?_, lookup_setMeta_attributes bf
          (messageId.getD ("MT-" ++ toString nowEpoch)) pt pa⟩
      unfold process_single_message
      rw [hbase]
      simp [hm, exceptBind_ok, exceptPure, setMeta]
  · intro wf af hm hclass hattr
    refine ⟨dictSet (dictSet (dictSet (dictSet bf "attributes"
        (Json.obj (dictUpdate af wf))) "message_id"
        (Json.str (messageId.getD ("MT-" ++ toString nowEpoch))))
        "processing_time" (Json.num pt)) "processed_at" (Json.str pa),
      ?_, ?_⟩
    · unfold process_single_message
      rw [hbase]
      simp [hm, hclass, exceptBind_ok, exceptPure, mergeWorkcase, hattr,
        setMeta]
    · rw [lookup_setMeta_attributes, lookupJson_dictSet_self]
  · intro wf hm hclass hattr
    refine ⟨dictSet (dictSet (dictSet (dictSet bf "attributes" (Json.obj wf))
        "message_id" (Json.str (messageId.getD ("MT-" ++ toString nowEpoch))))
        "processing_time" (Json.num pt)) "processed_at" (Json.str pa),
      ?_, ?_⟩
    · unfold process_single_message
      rw [hbase]
      simp [hm, hclass, exceptBind_ok, exceptPure, mergeWorkcase, hattr,
        setMeta]
    · rw [lookup_setMeta_attributes, lookupJson_dictSet_self]
  · intro e hm hclass
    unfold process_single_message
    rw [hbase]
    simp [hm, hclass, exceptBind_ok, exceptBind_error]

/-- Witness for C9: a message whose first 20 characters contain `"199"` gets
the classification merged into its attributes; an MT103 message is processed
with the attributes untouched. -/
theorem C9_witness :
    mt199Check "MT199 notice" = true ∧
    mt199Check "MT103 payment" = false ∧
    (∃ rf : List (String × Json),
      process_single_message convertW extractW classifyW "MT199 notice"
        "extract" (some "M1") 0 0 "T" = Except.ok (Json.obj rf) ∧
      lookupJson rf "attributes" =
        some (Json.obj (dictUpdate [("field20", Json.str "REF1")]
          [("workcase_type", Json.str "NON_RECEIPT")]))) ∧
    (∃ rf : List (String × Json),
      process_single_message convertW extractW classifyW "MT103 payment"
        "extract" (some "M2") 0 0 "T" = Except.ok (Json.obj rf) ∧
      lookupJson rf "attributes" =
        lookupJson [("attributes", Json.obj [("field20", Json.str "REF1")])]
          "attributes") := by
  refine ⟨rfl, rfl, ?_, ?_⟩
  · exact (C9_mt199_classification_merge convertW extractW classifyW
      "MT199 notice" "extract" (some "M1") 0 0 "T"
      [("attributes", Json.obj [("field20", Json.str "REF1")])] rfl).2.1
      [("workcase_type", Json.str "NON_RECEIPT")]
      [("field20", Json.str "REF1")] rfl rfl rfl
  · exact ((C9_mt199_classification_merge convertW extractW classifyW
      "MT103 payment" "extract" (some "M2") 0 0 "T"
      [("attributes", Json.obj [("field20", Json.str "REF1")])] rfl).1 rfl).2

end MTCase
